import Mathlib

/-
  Verification of the balloontrack GPS web tracker's ingestion core
  (gps_web_tracker.py): the stream framer in `listen`, the report
  extractor `parse_gps_data` / `_extract_gps_point`, the bounded
  per-sender history store `store_gps_data` / `load_historical_data`,
  and the summarizer `get_sender_summary` / `_calculate_altitude_trend`.

  Modelling conventions:
  * Python float values are modelled as rationals; the claims under
    scrutiny only compare, subtract and round these values at one
    decimal, so the rational model is faithful on the inputs used.
  * A Python dict key that may be absent is an `Option` field.
  * XML elements found by `find` are `Option` values; an element's text
    is itself an `Option String` (ElementTree yields `None` for an
    empty element), and a numeric text is modelled post-parse as
    `Option Q` (`none` when `float(...)` raises).
  * The in-memory stores `gps_data` (a `defaultdict(list)`) and
    `latest_positions` (a plain dict) are total functions from the
    Python key (the record's sender value, which may be `None`) with
    defaults `[]` and `none`.
-/

namespace BalloonTrack

/-- One GPS position record, as built by `_extract_gps_point` and by the
row conversion in `load_historical_data`: the dict stored in
`gps_data[sender]`. Optional dict keys are `Option` fields. -/
structure PosRecord where
  sender : Option String
  sender_type : String
  lat : ℚ
  lng : ℚ
  timestamp : Option String
  protocol : Option String
  altitude : Option ℚ := none
  speed : Option ℚ := none
  course : Option ℚ := none
  gps_time : Option String := none
  fix_type : Option String := none
  satellites : Option Int := none
  emergency : Option Bool := none
deriving DecidableEq, Repr

/-- The tracker's shared in-memory state: `self.gps_data` (defaultdict
sender -> list of points) and `self.latest_positions` (dict sender ->
point), both keyed by the record's sender value. -/
structure TrackerState where
  gps_data : Option String → List PosRecord
  latest_positions : Option String → Option PosRecord

/-- The state right after `__init__` sets up empty containers. -/
def emptyState : TrackerState :=
  { gps_data := fun _ => [], latest_positions := fun _ => none }

/-- Python's slice `l[-k:]`. Note `l[-0:]` is `l[0:] = l`, not `[]`. -/
def pyTail (k : Nat) (l : List α) : List α :=
  if k = 0 then l else l.drop (l.length - k)

/-- The truncation both stores apply: `if len(l) > max: l = l[-max:]`. -/
def truncIfOver (maxP : Nat) (l : List α) : List α :=
  if l.length > maxP then pyTail maxP l else l

/-- The last `n` elements of a list (all of it when it is shorter). -/
def takeLast (n : Nat) (l : List α) : List α :=
  l.drop (l.length - n)

/-- One iteration of the loop body of `store_gps_data`: append the point
to its sender's list, truncate to the cap, update the latest position. -/
def store_point (maxP : Nat) (st : TrackerState) (p : PosRecord) : TrackerState :=
  let s := p.sender
  let l := truncIfOver maxP (st.gps_data s ++ [p])
  { gps_data := fun x => if x = s then l else st.gps_data x
    latest_positions := fun x => if x = s then some p else st.latest_positions x }

/-- `GPSWebTracker.store_gps_data`, restricted to its in-memory effect
(the database write and socket emit are external): a fold of
`store_point` over the batch.  The early return on an empty batch leaves
the state unchanged, exactly as the empty fold does. -/
def store_gps_data (maxP : Nat) (st : TrackerState) (pts : List PosRecord) : TrackerState :=
  pts.foldl (store_point maxP) st

/-- Python truthiness of the `current_sender` variable in
`load_historical_data`: `None` and the empty string are falsy. -/
def pyTruthyStr : Option String → Bool
  | none => false
  | some s => !(s == "")

/-- The group-install step of `load_historical_data`:
`if current_sender and points_for_sender:` truncate the group to the cap
and install history and latest for that sender. -/
def flushGroup (maxP : Nat) (cur : Option String) (pts : List PosRecord)
    (st : TrackerState) : TrackerState :=
  if pyTruthyStr cur ∧ pts ≠ [] then
    let l := truncIfOver maxP pts
    { gps_data := fun x => if x = cur then l else st.gps_data x
      latest_positions := fun x => if x = cur then l.getLast? else st.latest_positions x }
  else st

/-- The row loop of `load_historical_data`: `cur` is `current_sender`
(initially `None`), `pts` is `points_for_sender`.  On a sender change the
previous group is flushed; every row is appended to the running group;
the final group is flushed after the loop. -/
def loadLoop (maxP : Nat) : List PosRecord → Option String → List PosRecord →
    TrackerState → TrackerState
  | [], cur, pts, st => flushGroup maxP cur pts st
  | r :: rest, cur, pts, st =>
    if cur ≠ r.sender then
      loadLoop maxP rest r.sender [r] (flushGroup maxP cur pts st)
    else
      loadLoop maxP rest cur (pts ++ [r]) st

/-- `GPSWebTracker.load_historical_data` on the already-converted rows
(the SQL query orders them by sender, then timestamp), starting from the
empty in-memory state that `__init__` just created. -/
def load_historical_data (maxP : Nat) (rows : List PosRecord) : TrackerState :=
  loadLoop maxP rows none [] emptyState

/-- Result dict of `_calculate_altitude_trend`. -/
structure AltitudeInfo where
  current_altitude : Option ℚ
  trend : String
  change : ℚ
deriving DecidableEq, Repr

/-- Rounding to one decimal place, `round(x, 1)`, on the rational model. -/
def round1 (q : ℚ) : ℚ := (round (10 * q) : ℤ) / 10

/-- `GPSWebTracker._calculate_altitude_trend`: current altitude from the
latest point; with at least 2 points, look at the last 5 (`points[-5:]`),
collect the non-absent altitudes, and with at least 2 of those set
`change` to the rounded difference last - first and the trend by
comparing the unrounded difference against the 5.0 m threshold. -/
def calculate_altitude_trend (points : List PosRecord) : AltitudeInfo :=
  match points.getLast? with
  | none => { current_altitude := none, trend := "stable", change := 0 }
  | some latest =>
    let cur := latest.altitude.map round1
    if points.length < 2 then { current_altitude := cur, trend := "stable", change := 0 }
    else
      let altitudes := (takeLast 5 points).filterMap PosRecord.altitude
      if altitudes.length < 2 then { current_altitude := cur, trend := "stable", change := 0 }
      else
        let d := altitudes.getLast?.getD 0 - altitudes.head?.getD 0
        { current_altitude := cur
          trend := if d > 5 then "rising" else if d < -5 then "falling" else "stable"
          change := round1 d }

/-- One sender's entry in the dict built by `get_sender_summary`. -/
structure SenderSummary where
  total_points : Nat
  latest_position : ℚ × ℚ
  latest_time : Option String
  emergency_active : Bool
  altitude : Option ℚ
  altitude_trend : String
  altitude_change : ℚ
deriving DecidableEq, Repr

/-- `GPSWebTracker.get_sender_summary`, viewed per sender: the summary
dict has an entry for a sender exactly when its point list is nonempty
(`if points:`), built from the last point and the altitude-trend info. -/
def get_sender_summary (st : TrackerState) (s : Option String) : Option SenderSummary :=
  let points := st.gps_data s
  match points.getLast? with
  | none => none
  | some latest =>
    let ai := calculate_altitude_trend points
    some { total_points := points.length
           latest_position := (latest.lat, latest.lng)
           latest_time := latest.timestamp
           emergency_active := latest.emergency.getD false
           altitude := ai.current_altitude
           altitude_trend := ai.trend
           altitude_change := ai.change }

/-- A point-bearing XML element as `_extract_gps_point` reads it: each
child element is `none` when `find` misses; a present numeric child
carries `some q` when `float(text)` succeeds and `none` when it raises
(unparseable or absent text); string children carry their raw text. -/
structure PointElem where
  lat : Option (Option ℚ) := none
  lng : Option (Option ℚ) := none
  alt : Option (Option ℚ) := none
  gndVel : Option (Option ℚ) := none
  course : Option (Option ℚ) := none
  time : Option (Option String) := none
  fix : Option (Option String) := none
  sats : Option (Option Int) := none
  emer : Option (Option String) := none
deriving DecidableEq, Repr

/-- `GPSWebTracker._extract_gps_point`: missing `lat`/`lng` elements or a
failed float parse drop the point (the latter via the except handler);
out-of-range coordinates drop the point with a warning; optional fields
whose conversion fails are simply omitted; `emer` is true exactly when
its raw text equals "1". -/
def extract_gps_point (e : PointElem) (sender : Option String) (sender_type : String)
    (timestamp : Option String) (protocol : Option String) : Option PosRecord :=
  match e.lat, e.lng with
  | some latTxt, some lngTxt =>
    match latTxt, lngTxt with
    | some lat, some lng =>
      if -90 ≤ lat ∧ lat ≤ 90 ∧ -180 ≤ lng ∧ lng ≤ 180 then
        some { sender := sender, sender_type := sender_type, lat := lat, lng := lng
               timestamp := timestamp, protocol := protocol
               altitude := e.alt.bind id, speed := e.gndVel.bind id
               course := e.course.bind id, gps_time := e.time.bind id
               fix_type := e.fix.bind id, satellites := e.sats.bind id
               emergency := e.emer.map (fun t => t == some "1") }
      else none
    | _, _ => none
  | _, _ => none

/-- A report section element: `selfPoint` is the section read as a point
element (single-point schemas), `points` its `point` sub-elements
(collection schemas `nalGpsReport3` / `nalGpsReport4`). -/
structure GpsReportElem where
  selfPoint : PointElem := {}
  points : List PointElem := []
deriving DecidableEq, Repr

/-- The `meta` section: the `sender` element (with its text and `type`
attribute), and the optional `time` and `protocol` elements. -/
structure MetaElem where
  sender : Option (Option String) := none
  senderTypeAttr : Option String := none
  time : Option (Option String) := none
  protocol : Option (Option String) := none
deriving DecidableEq, Repr

/-- The parsed message root: the `meta` section and the eight known
report sections, each `none` when `root.find` misses it. -/
structure DataRoot where
  meta : Option MetaElem := none
  nalGpsReport3 : Option GpsReportElem := none
  nalGpsReport4 : Option GpsReportElem := none
  nalGpsReport5 : Option GpsReportElem := none
  nalGpsReport6 : Option GpsReportElem := none
  nalGpsReport7 : Option GpsReportElem := none
  nal10ByteGpsReport0 : Option GpsReportElem := none
  pecosP3GpsReport : Option GpsReportElem := none
  pecosP4GpsReport : Option GpsReportElem := none
deriving DecidableEq, Repr

/-- `root.find(report_type)` for the eight known tag names. -/
def DataRoot.findReport (root : DataRoot) : String → Option GpsReportElem
  | "nalGpsReport3" => root.nalGpsReport3
  | "nalGpsReport4" => root.nalGpsReport4
  | "nalGpsReport5" => root.nalGpsReport5
  | "nalGpsReport6" => root.nalGpsReport6
  | "nalGpsReport7" => root.nalGpsReport7
  | "nal10ByteGpsReport0" => root.nal10ByteGpsReport0
  | "pecosP3GpsReport" => root.pecosP3GpsReport
  | "pecosP4GpsReport" => root.pecosP4GpsReport
  | _ => none

/-- The ordered `report_types` list of `parse_gps_data`. -/
def report_types : List String :=
  ["nalGpsReport3", "nalGpsReport4", "nalGpsReport5", "nalGpsReport6",
   "nalGpsReport7", "nal10ByteGpsReport0", "pecosP3GpsReport", "pecosP4GpsReport"]

/-- The `for report_type in report_types: ... break` loop of
`parse_gps_data`: the first present section is consumed (points
sub-elements for the two collection schemas, the section itself
otherwise) and the loop breaks; sections later in the list are never
looked at. -/
def scanReports (root : DataRoot) (sender : Option String) (sender_type : String)
    (timestamp protocol : Option String) : List String → List PosRecord
  | [] => []
  | t :: rest =>
    match root.findReport t with
    | some rep =>
      if t = "nalGpsReport3" ∨ t = "nalGpsReport4" then
        rep.points.filterMap (fun p => extract_gps_point p sender sender_type timestamp protocol)
      else
        (extract_gps_point rep.selfPoint sender sender_type timestamp protocol).toList
    | none => scanReports root sender sender_type timestamp protocol rest

/-- `GPSWebTracker.parse_gps_data`.  The argument is `none` when
`ET.fromstring` raises (malformed XML, caught and turned into `None`).
Missing `meta` or `sender` elements return `None`; a configured,
non-matching target sender returns `None`; otherwise the report scan's
records are returned (possibly the empty list). -/
def parse_gps_data (target_sender : Option String) (msg : Option DataRoot) :
    Option (List PosRecord) :=
  match msg with
  | none => none
  | some root =>
    match root.meta with
    | none => none
    | some m =>
      match m.sender with
      | none => none
      | some senderTxt =>
        let sender_type := m.senderTypeAttr.getD "Unknown"
        let timestamp := m.time.bind id
        let protocol := m.protocol.bind id
        if pyTruthyStr target_sender ∧ senderTxt ≠ target_sender then none
        else some (scanReports root senderTxt sender_type timestamp protocol report_types)

/-- The opening envelope tag `<data>` as a character list. -/
def openTag : List Char := ['<', 'd', 'a', 't', 'a', '>']

/-- The closing envelope tag `</data>` as a character list. -/
def closeTag : List Char := ['<', '/', 'd', 'a', 't', 'a', '>']

/-- Index of the first occurrence of `pat` in `s` (Python `s.find(pat)`,
with `none` for -1). -/
def findSub (pat : List Char) : List Char → Option Nat
  | [] => if pat.isEmpty then some 0 else none
  | c :: rest =>
    if (c :: rest).take pat.length = pat then some 0
    else (findSub pat rest).map (· + 1)

/-- Python `s.find(pat, start)` for `0 ≤ start`: the least index at or
after `start` where `pat` occurs. -/
def findFrom (pat s : List Char) (start : Nat) : Option Nat :=
  (findSub pat (s.drop start)).map (· + start)

/-- The guard of the message-extraction loop in `listen`:
`'<data>' in buffer and '</data>' in buffer`. -/
def framerGuard (buf : List Char) : Bool :=
  (findSub openTag buf).isSome && (findSub closeTag buf).isSome

/-- One body execution of the extraction loop in `listen`:
`start = buffer.find('<data>')`, `end = buffer.find('</data>', start) + 7`;
if `start != -1 and end > start` the message `buffer[start:end]` is
emitted and that prefix removed, otherwise nothing changes. -/
def framerBody (buf : List Char) : Option (List Char) × List Char :=
  match findSub openTag buf with
  | none => (none, buf)
  | some start =>
    let e : Int := (match findFrom closeTag buf start with
                    | none => -1
                    | some c => (c : Int)) + 7
    if e > (start : Int) then
      (some ((buf.take e.toNat).drop start), buf.drop e.toNat)
    else (none, buf)

/-- The extraction loop of `listen` run for at most `fuel` iterations:
returns the messages emitted so far and the remaining buffer.  The real
loop keeps iterating while the guard holds; a run that never falsifies
the guard within any fuel bound is a non-terminating loop. -/
def framerRun (maxFuel : Nat) (buf : List Char) : List (List Char) × List Char :=
  match maxFuel with
  | 0 => ([], buf)
  | n + 1 =>
    if framerGuard buf then
      let (msg, buf2) := framerBody buf
      let (msgs, bufF) := framerRun n buf2
      (msg.toList ++ msgs, bufF)
    else ([], buf)

/-- The composite state the tracker actually reaches: bulk load of the
persisted rows at startup, then incremental appends from the stream. -/
def reachedState (maxP : Nat) (rows L : List PosRecord) : TrackerState :=
  store_gps_data maxP (load_historical_data maxP rows) L

/-- The sender sort key a record contributes to the SQL
`ORDER BY sender, timestamp`; `""` stands for an impossible NULL. -/
def senderKey (r : PosRecord) : String := r.sender.getD ""

/-- The timestamp sort key of the SQL `ORDER BY sender, timestamp`. -/
def tsKey (r : PosRecord) : String := r.timestamp.getD ""

/-- Rows ordered by sender, then timestamp, as the bulk-load query
delivers them. -/
def SortedRows (rows : List PosRecord) : Prop :=
  rows.Pairwise (fun a b =>
    senderKey a < senderKey b ∨ (senderKey a = senderKey b ∧ tsKey a ≤ tsKey b))

/-- Split off the maximal leading run of rows whose sender equals `s`. -/
def takeRun (s : Option String) : List PosRecord → List PosRecord × List PosRecord
  | [] => ([], [])
  | r :: t =>
    if r.sender = s then
      let res := takeRun s t
      (r :: res.1, res.2)
    else ([], r :: t)

/-- The altitude algorithm as the specification words it (for comparison
with `calculate_altitude_trend`): `change` is the rounded difference of
the collected altitudes, and the trend thresholds are applied to that
rounded `change`. -/
def claimAltitudeTrend (points : List PosRecord) : AltitudeInfo :=
  let cur := (points.getLast?.bind PosRecord.altitude).map round1
  let alts := (takeLast 5 points).filterMap PosRecord.altitude
  if points.length < 2 ∨ alts.length < 2 then
    { current_altitude := cur, trend := "stable", change := 0 }
  else
    let change := round1 (alts.getLast?.getD 0 - alts.head?.getD 0)
    { current_altitude := cur
      trend := if change > 5 then "rising" else if change < -5 then "falling" else "stable"
      change := change }

/-- A buffer a fresh `listen` call can hold after one receive that joins
the stream mid-message: the tail of one envelope followed by the start
of the next, whose close has not arrived yet. -/
def stuckBuf : List Char := ['<', '/', 'd', 'a', 't', 'a', '>', '<', 'd', 'a', 't', 'a', '>']

/-- A persisted record whose sender is the empty string: legal in the
database (`sender TEXT NOT NULL` admits `''`) and a legal dict key. -/
def rEmptySender : PosRecord :=
  { sender := some "", sender_type := "Unknown", lat := 0, lng := 0,
    timestamp := some "2025-01-01T00:00:00", protocol := none }

/-- A concrete record for sender `alpha`. -/
def rAlpha : PosRecord :=
  { sender := some "alpha", sender_type := "Iridium", lat := 34, lng := -118,
    timestamp := some "2025-01-01T00:00:00", protocol := some "nal",
    altitude := some 500 }

/-- A concrete record for sender `beta`. -/
def rBeta : PosRecord :=
  { sender := some "beta", sender_type := "Iridium", lat := 35, lng := -117,
    timestamp := some "2025-01-01T00:01:00", protocol := some "nal",
    altitude := some 600 }

/-- A record for sender `S` carrying only an altitude. -/
def pAlt (q : ℚ) : PosRecord :=
  { sender := some "S", sender_type := "Unknown", lat := 0, lng := 0,
    timestamp := none, protocol := none, altitude := some q }

/-- A record for sender `S` with the emergency flag raised. -/
def pEmer : PosRecord :=
  { sender := some "S", sender_type := "Unknown", lat := 0, lng := 0,
    timestamp := some "10:00", protocol := none, emergency := some true }

/-- A later record for sender `S` without an emergency key. -/
def pCalm : PosRecord :=
  { sender := some "S", sender_type := "Unknown", lat := 0, lng := 0,
    timestamp := some "10:01", protocol := none }

/-- A minimal valid point element. -/
def ptSimple : PointElem := { lat := some (some 1), lng := some (some 2) }

/-- A single-point report section wrapping `ptSimple`. -/
def repSimple : GpsReportElem := { selfPoint := ptSimple }

/-- A message whose `sender` element is present but empty
(`<sender/>`, ElementTree text `None`) and whose `time` element is
absent, with a valid `nalGpsReport5` section. -/
def rootNoSenderText : DataRoot :=
  { meta := some { sender := some none }, nalGpsReport5 := some repSimple }

/-- The record the tracker extracts from `rootNoSenderText`. -/
def recNoSenderText : PosRecord :=
  { sender := none, sender_type := "Unknown", lat := 1, lng := 2,
    timestamp := none, protocol := none }

/-- A well-formed `meta` section for sender `alpha`. -/
def metaAlpha : MetaElem :=
  { sender := some (some "alpha"), time := some (some "T1") }

/-- A message with one `nalGpsReport5` section. -/
def rootSingle : DataRoot :=
  { meta := some metaAlpha, nalGpsReport5 := some repSimple }

/-- A well-formed message carrying none of the eight report schemas. -/
def rootNoReports : DataRoot := { meta := some metaAlpha }

/-- The in-memory state after appending `pEmer` then `pCalm`. -/
def stEmerThenCalm : TrackerState := store_gps_data 10 emptyState [pEmer, pCalm]

theorem TrackerState.ext' (a b : TrackerState)
    (h1 : ∀ x, a.gps_data x = b.gps_data x)
    (h2 : ∀ x, a.latest_positions x = b.latest_positions x) : a = b := by
  cases a
  cases b
  simp only [TrackerState.mk.injEq]
  exact ⟨funext h1, funext h2⟩

theorem takeLast_of_le_length (n : Nat) (l : List α) (h : l.length ≤ n) :
    takeLast n l = l := by
  unfold takeLast
  rw [Nat.sub_eq_zero_of_le h, List.drop_zero]

theorem drop_getLast? (l : List α) (k : Nat) (h : k < l.length) :
    (l.drop k).getLast? = l.getLast? := by
  conv_rhs => rw [← List.take_append_drop k l]
  rw [List.getLast?_append_of_ne_nil]
  intro hnil
  have := congrArg List.length hnil
  simp only [List.length_drop, List.length_nil] at this
  omega

theorem truncIfOver_eq_takeLast (maxP : Nat) (hm : 1 ≤ maxP) (l : List α) :
    truncIfOver maxP l = takeLast maxP l := by
  unfold truncIfOver pyTail takeLast
  by_cases h : l.length > maxP
  · simp only [h, if_true]
    rw [if_neg (by omega)]
  · simp only [h, if_false]
    rw [Nat.sub_eq_zero_of_le (by omega), List.drop_zero]

theorem truncIfOver_zero (l : List α) : truncIfOver 0 l = l := by
  unfold truncIfOver pyTail
  by_cases h : l.length > 0 <;> simp [h]

theorem getLast?_truncIfOver (maxP : Nat) (l : List α) :
    (truncIfOver maxP l).getLast? = l.getLast? := by
  rcases Nat.eq_zero_or_pos maxP with h0 | h1
  · rw [h0, truncIfOver_zero]
  · rw [truncIfOver_eq_takeLast maxP h1 l]
    unfold takeLast
    by_cases h : l.length ≤ maxP
    · rw [Nat.sub_eq_zero_of_le h, List.drop_zero]
    · exact drop_getLast? l _ (by omega)

theorem length_truncIfOver_le (maxP : Nat) (hm : 1 ≤ maxP) (l : List α) :
    (truncIfOver maxP l).length ≤ maxP := by
  rw [truncIfOver_eq_takeLast maxP hm l]
  unfold takeLast
  rw [List.length_drop]
  omega

theorem takeLast_append_left (n : Nat) (xs ys : List α) :
    takeLast n (takeLast n xs ++ ys) = takeLast n (xs ++ ys) := by
  by_cases h : xs.length ≤ n
  · rw [takeLast_of_le_length n xs h]
  · have hk : xs.length - n ≤ xs.length := Nat.sub_le _ _
    have h1 : takeLast n xs ++ ys = (xs ++ ys).drop (xs.length - n) := by
      unfold takeLast
      exact (List.drop_append_of_le_length hk).symm
    have hlen : (xs ++ ys).length = xs.length + ys.length := List.length_append xs ys
    rw [h1]
    unfold takeLast
    rw [List.drop_drop, List.length_drop]
    congr 1
    omega

theorem foldl_snoc_eq_append (init : List α) (xs : List α) :
    xs.foldl (fun l p => l ++ [p]) init = init ++ xs := by
  induction xs generalizing init with
  | nil => simp
  | cons p rest ih =>
    simp only [List.foldl_cons, ih, List.append_assoc, List.singleton_append]

theorem foldl_truncApp_of_ne_nil (maxP : Nat) (hm : 1 ≤ maxP) :
    ∀ (xs : List α) (init : List α), xs ≠ [] →
      xs.foldl (fun l p => truncIfOver maxP (l ++ [p])) init = takeLast maxP (init ++ xs)
  | [], _, hne => absurd rfl hne
  | [p], init, _ => by
    simp only [List.foldl_cons, List.foldl_nil]
    exact truncIfOver_eq_takeLast maxP hm _
  | p :: q :: rest, init, _ => by
    have ih := foldl_truncApp_of_ne_nil maxP hm (q :: rest) (truncIfOver maxP (init ++ [p]))
      (by simp)
    simp only [List.foldl_cons] at ih ⊢
    rw [ih, truncIfOver_eq_takeLast maxP hm (init ++ [p]), takeLast_append_left]
    simp

theorem foldl_truncApp_nil (maxP : Nat) (xs : List α) :
    xs.foldl (fun l p => truncIfOver maxP (l ++ [p])) [] = truncIfOver maxP xs := by
  rcases Nat.eq_zero_or_pos maxP with h0 | h1
  · subst h0
    rw [truncIfOver_zero]
    have : ∀ (l : List α) (p : α), truncIfOver 0 (l ++ [p]) = l ++ [p] :=
      fun l p => truncIfOver_zero _
    calc xs.foldl (fun l p => truncIfOver 0 (l ++ [p])) []
        = xs.foldl (fun l p => l ++ [p]) [] := by
          congr 1
          funext l p
          exact this l p
      _ = [] ++ xs := foldl_snoc_eq_append [] xs
      _ = xs := by simp
  · rcases xs with _ | ⟨p, rest⟩
    · simp [truncIfOver]
    · rw [foldl_truncApp_of_ne_nil maxP h1 (p :: rest) [] (by simp),
        truncIfOver_eq_takeLast maxP h1]
      simp

theorem getLast?_cons_or (p : α) (l : List α) (d : Option α) :
    ((p :: l).getLast?).or d = (l.getLast?).or (some p) := by
  rcases l with _ | ⟨q, t⟩
  · simp [List.getLast?]
  · rw [List.getLast?_cons_cons]
    rcases hq : (q :: t).getLast? with _ | x
    · exact absurd (List.getLast?_eq_none_iff.mp hq) (by simp)
    · rfl

theorem store_gps_data_gps_apply (maxP : Nat) :
    ∀ (pts : List PosRecord) (st : TrackerState) (s : Option String),
      (store_gps_data maxP st pts).gps_data s
        = (pts.filter (fun p => p.sender = s)).foldl
            (fun l p => truncIfOver maxP (l ++ [p])) (st.gps_data s)
  | [], st, s => rfl
  | p :: rest, st, s => by
    have ih := store_gps_data_gps_apply maxP rest (store_point maxP st p) s
    show (store_gps_data maxP (store_point maxP st p) rest).gps_data s = _
    rw [ih]
    by_cases h : p.sender = s
    · have hfil : (p :: rest).filter (fun q => q.sender = s)
          = p :: rest.filter (fun q => q.sender = s) := by
        simp [List.filter_cons, h]
      rw [hfil, List.foldl_cons]
      congr 1
      show (if s = p.sender then truncIfOver maxP (st.gps_data p.sender ++ [p])
            else st.gps_data s) = truncIfOver maxP (st.gps_data s ++ [p])
      rw [if_pos h.symm, h]
    · have hfil : (p :: rest).filter (fun q => q.sender = s)
          = rest.filter (fun q => q.sender = s) := by
        simp [List.filter_cons, h]
      rw [hfil]
      congr 1
      show (if s = p.sender then truncIfOver maxP (st.gps_data p.sender ++ [p])
            else st.gps_data s) = st.gps_data s
      rw [if_neg (fun hc => h hc.symm)]

theorem store_gps_data_latest_apply (maxP : Nat) :
    ∀ (pts : List PosRecord) (st : TrackerState) (s : Option String),
      (store_gps_data maxP st pts).latest_positions s
        = ((pts.filter (fun p => p.sender = s)).getLast?).or (st.latest_positions s)
  | [], st, s => rfl
  | p :: rest, st, s => by
    have ih := store_gps_data_latest_apply maxP rest (store_point maxP st p) s
    show (store_gps_data maxP (store_point maxP st p) rest).latest_positions s = _
    rw [ih]
    by_cases h : p.sender = s
    · have hfil : (p :: rest).filter (fun q => q.sender = s)
          = p :: rest.filter (fun q => q.sender = s) := by
        simp [List.filter_cons, h]
      rw [hfil, getLast?_cons_or]
      congr 1
      show (if s = p.sender then some p else st.latest_positions s) = some p
      rw [if_pos h.symm]
    · have hfil : (p :: rest).filter (fun q => q.sender = s)
          = rest.filter (fun q => q.sender = s) := by
        simp [List.filter_cons, h]
      rw [hfil]
      congr 1
      show (if s = p.sender then some p else st.latest_positions s) = st.latest_positions s
      rw [if_neg (fun hc => h hc.symm)]

theorem store_empty_gps (maxP : Nat) (pts : List PosRecord) (s : Option String) :
    (store_gps_data maxP emptyState pts).gps_data s
      = truncIfOver maxP (pts.filter (fun p => p.sender = s)) := by
  rw [store_gps_data_gps_apply]
  exact foldl_truncApp_nil maxP _

theorem store_empty_latest (maxP : Nat) (pts : List PosRecord) (s : Option String) :
    (store_gps_data maxP emptyState pts).latest_positions s
      = (pts.filter (fun p => p.sender = s)).getLast? := by
  rw [store_gps_data_latest_apply]
  rcases hq : (pts.filter (fun p => p.sender = s)).getLast? with _ | x <;>
    simp [hq, Option.or, emptyState]

theorem takeRun_append (s : Option String) :
    ∀ l : List PosRecord, (takeRun s l).1 ++ (takeRun s l).2 = l
  | [] => rfl
  | r :: t => by
    unfold takeRun
    by_cases h : r.sender = s
    · simp only [if_pos h, List.cons_append, List.cons.injEq, true_and]
      exact takeRun_append s t
    · simp [if_neg h]

theorem takeRun_mem_run (s : Option String) :
    ∀ (l : List PosRecord) (r : PosRecord), r ∈ (takeRun s l).1 → r.sender = s
  | [], r, h => absurd h (by simp [takeRun])
  | q :: t, r, h => by
    unfold takeRun at h
    by_cases hq : q.sender = s
    · rw [if_pos hq] at h
      rcases List.mem_cons.mp h with h1 | h2
      · rw [h1]; exact hq
      · exact takeRun_mem_run s t r h2
    · rw [if_neg hq] at h
      exact absurd h (by simp)

theorem takeRun_rest_head (s : Option String) :
    ∀ (l : List PosRecord) (r2 : PosRecord) (rest2 : List PosRecord),
      (takeRun s l).2 = r2 :: rest2 → r2.sender ≠ s
  | [], r2, rest2, h => by simp [takeRun] at h
  | q :: t, r2, rest2, h => by
    unfold takeRun at h
    by_cases hq : q.sender = s
    · rw [if_pos hq] at h
      exact takeRun_rest_head s t r2 rest2 h
    · rw [if_neg hq] at h
      have h' : q :: t = r2 :: rest2 := h
      injection h' with ha _
      rw [← ha]
      exact hq

theorem takeRun_rest_sublist (s : Option String) (l : List PosRecord) :
    (takeRun s l).2.Sublist l := by
  conv_rhs => rw [← takeRun_append s l]
  exact List.sublist_append_right _ _

theorem loadLoop_run_nil (maxP : Nat) :
    ∀ (rows : List PosRecord) (cur : Option String) (pts : List PosRecord)
      (st : TrackerState) (run : List PosRecord),
      takeRun cur rows = (run, []) →
      loadLoop maxP rows cur pts st = flushGroup maxP cur (pts ++ run) st
  | [], cur, pts, st, run, h => by
    simp only [takeRun, Prod.mk.injEq] at h
    rw [← h.1]
    simp [loadLoop]
  | r :: t, cur, pts, st, run, h => by
    unfold takeRun at h
    by_cases hr : r.sender = cur
    · rw [if_pos hr] at h
      simp only [Prod.mk.injEq] at h
      obtain ⟨h1, h2⟩ := h
      have ih := loadLoop_run_nil maxP t cur (pts ++ [r]) st (takeRun cur t).1
        (by rw [← h2])
      unfold loadLoop
      rw [if_neg (by simp [hr])]
      rw [ih, ← h1]
      simp
    · rw [if_neg hr] at h
      simp only [Prod.mk.injEq] at h
      exact absurd h.2 (by simp)

theorem loadLoop_cons_eq (maxP : Nat) (r : PosRecord) (t : List PosRecord)
    (cur : Option String) (pts : List PosRecord) (st : TrackerState) :
    loadLoop maxP (r :: t) cur pts st
      = if cur = r.sender then loadLoop maxP t cur (pts ++ [r]) st
        else loadLoop maxP t r.sender [r] (flushGroup maxP cur pts st) := by
  show (if cur ≠ r.sender then loadLoop maxP t r.sender [r] (flushGroup maxP cur pts st)
        else loadLoop maxP t cur (pts ++ [r]) st) = _
  by_cases h : cur = r.sender
  · rw [if_neg (by simpa using h), if_pos h]
  · rw [if_pos h, if_neg h]

theorem loadLoop_run_cons (maxP : Nat) :
    ∀ (rows : List PosRecord) (cur : Option String) (pts : List PosRecord)
      (st : TrackerState) (run : List PosRecord) (r2 : PosRecord) (rest2 : List PosRecord),
      takeRun cur rows = (run, r2 :: rest2) →
      loadLoop maxP rows cur pts st
        = loadLoop maxP rest2 r2.sender [r2] (flushGroup maxP cur (pts ++ run) st)
  | [], cur, pts, st, run, r2, rest2, h => by
    simp [takeRun] at h
  | r :: t, cur, pts, st, run, r2, rest2, h => by
    unfold takeRun at h
    by_cases hr : r.sender = cur
    · rw [if_pos hr] at h
      simp only [Prod.mk.injEq] at h
      obtain ⟨h1, h2⟩ := h
      have ih := loadLoop_run_cons maxP t cur (pts ++ [r]) st (takeRun cur t).1 r2 rest2
        (by rw [← h2])
      rw [loadLoop_cons_eq, if_pos hr.symm, ih, ← h1]
      simp
    · rw [if_neg hr] at h
      simp only [Prod.mk.injEq] at h
      obtain ⟨h1, h2⟩ := h
      injection h2 with ha hb
      rw [loadLoop_cons_eq, if_neg (fun hc => hr hc.symm), ← h1, ha, hb]
      simp

theorem flushGroup_eq_store (maxP : Nat) (s : String) (hs : s ≠ "")
    (grp : List PosRecord) (hgrp : grp ≠ [])
    (hall : ∀ r ∈ grp, r.sender = some s)
    (st : TrackerState) (hst : st.gps_data (some s) = []) :
    flushGroup maxP (some s) grp st = store_gps_data maxP st grp := by
  have hcond : pyTruthyStr (some s) = true ∧ grp ≠ [] := by
    constructor
    · simp [pyTruthyStr, hs]
    · exact hgrp
  have hflush : flushGroup maxP (some s) grp st
      = { gps_data := fun x => if x = some s then truncIfOver maxP grp else st.gps_data x
          latest_positions := fun x =>
            if x = some s then (truncIfOver maxP grp).getLast?
            else st.latest_positions x } := by
    unfold flushGroup
    rw [if_pos hcond]
  rw [hflush]
  apply TrackerState.ext'
  · intro x
    rw [store_gps_data_gps_apply]
    show (if x = some s then truncIfOver maxP grp else st.gps_data x) = _
    by_cases hx : x = some s
    · subst hx
      rw [if_pos rfl]
      have hfil : grp.filter (fun p => p.sender = some s) = grp :=
        List.filter_eq_self.mpr (fun a ha => by simp [hall a ha])
      rw [hfil, hst, foldl_truncApp_nil]
    · rw [if_neg hx]
      have hfil : grp.filter (fun p => p.sender = x) = [] := by
        apply List.filter_eq_nil_iff.mpr
        intro a ha
        rw [hall a ha]
        simp only [decide_eq_true_eq]
        exact fun hc => hx hc.symm
      rw [hfil]
      rfl
  · intro x
    rw [store_gps_data_latest_apply]
    show (if x = some s then (truncIfOver maxP grp).getLast? else st.latest_positions x) = _
    by_cases hx : x = some s
    · subst hx
      rw [if_pos rfl]
      have hfil : grp.filter (fun p => p.sender = some s) = grp :=
        List.filter_eq_self.mpr (fun a ha => by simp [hall a ha])
      rw [hfil, getLast?_truncIfOver]
      rcases hq : grp.getLast? with _ | y
      · exact absurd (List.getLast?_eq_none_iff.mp hq) hgrp
      · rfl
    · rw [if_neg hx]
      have hfil : grp.filter (fun p => p.sender = x) = [] := by
        apply List.filter_eq_nil_iff.mpr
        intro a ha
        rw [hall a ha]
        simp only [decide_eq_true_eq]
        exact fun hc => hx hc.symm
      rw [hfil]
      rfl

theorem flushGroup_none (maxP : Nat) (pts : List PosRecord) (st : TrackerState) :
    flushGroup maxP none pts st = st := by
  simp [flushGroup, pyTruthyStr]

theorem sender_eq_of_key (r : PosRecord) (h : senderKey r ≠ "") :
    r.sender = some (senderKey r) := by
  unfold senderKey at h ⊢
  rcases hr : r.sender with _ | v
  · rw [hr] at h
    simp at h
  · rfl

theorem loadLoop_eq_store_aux (maxP : Nat) :
    ∀ (n : Nat) (rows : List PosRecord), rows.length ≤ n →
      SortedRows rows → (∀ r ∈ rows, senderKey r ≠ "") →
      ∀ st : TrackerState, (∀ r ∈ rows, st.gps_data r.sender = []) →
      loadLoop maxP rows none [] st = store_gps_data maxP st rows := by
  intro n
  induction n with
  | zero =>
    intro rows hlen _ _ st _
    have hrows : rows = [] := List.length_eq_zero.mp (Nat.le_zero.mp hlen)
    subst hrows
    exact flushGroup_none maxP [] st
  | succ m ih =>
    intro rows hlen hsort hgood st hst
    rcases rows with _ | ⟨r, t⟩
    · exact flushGroup_none maxP [] st
    · have hgr : senderKey r ≠ "" := hgood r (by simp)
      have hrs : r.sender = some (senderKey r) := sender_eq_of_key r hgr
      rw [loadLoop_cons_eq,
        if_neg (fun hc => by rw [hrs] at hc; exact Option.noConfusion hc),
        flushGroup_none]
      rcases htr : takeRun r.sender t with ⟨run, rest2⟩
      have htsplit : run ++ rest2 = t := by
        rw [← takeRun_append r.sender t, htr]
      have hrunmem : ∀ x ∈ run, x.sender = r.sender := fun x hx =>
        takeRun_mem_run r.sender t x (by rw [htr]; exact hx)
      have hallgrp : ∀ x ∈ r :: run, x.sender = some (senderKey r) := by
        intro x hx
        rcases List.mem_cons.mp hx with h1 | h2
        · rw [h1]; exact hrs
        · rw [hrunmem x h2]; exact hrs
      have hstr : st.gps_data (some (senderKey r)) = [] := by
        rw [← hrs]; exact hst r (by simp)
      rcases rest2 with _ | ⟨r2, rest2'⟩
      · rw [loadLoop_run_nil maxP t r.sender [r] st run (by rw [htr])]
        have hteq : run = t := by simpa using htsplit
        rw [List.singleton_append, hrs,
          flushGroup_eq_store maxP (senderKey r) hgr (r :: run) (by simp) hallgrp st hstr]
        rw [hteq]
      · rw [loadLoop_run_cons maxP t r.sender [r] st run r2 rest2' (by rw [htr])]
        have hr2t : r2 ∈ t := by rw [← htsplit]; simp
        have hg2 : senderKey r2 ≠ "" := hgood r2 (by simp [hr2t])
        have hr2s : r2.sender = some (senderKey r2) := sender_eq_of_key r2 hg2
        have hr2ne : r2.sender ≠ r.sender :=
          takeRun_rest_head r.sender t r2 rest2' (by rw [htr])
        have hflush2 : flushGroup maxP r.sender ([r] ++ run) st
            = store_gps_data maxP st (r :: run) := by
          rw [List.singleton_append, hrs,
            flushGroup_eq_store maxP (senderKey r) hgr (r :: run) (by simp) hallgrp st hstr]
        rw [hflush2]
        -- keys strictly above the first run's key for everything still to come
        have hpair := (List.pairwise_cons.mp hsort)
        have hkey_r2 : senderKey r < senderKey r2 := by
          rcases hpair.1 r2 hr2t with hlt | ⟨heq, _⟩
          · exact hlt
          · exact absurd (by rw [hrs, hr2s, heq]) hr2ne
        have hsub2 : (r2 :: rest2').Sublist t := by
          rw [← htsplit]
          exact List.sublist_append_right run (r2 :: rest2')
        have hsort2 : SortedRows (r2 :: rest2') := List.Pairwise.sublist hsub2 hpair.2
        have hmem2 : ∀ q ∈ r2 :: rest2', q ∈ r :: t := by
          intro q hq
          exact List.mem_cons_of_mem r (hsub2.mem hq)
        have hkey_q : ∀ q ∈ r2 :: rest2', senderKey r < senderKey q := by
          intro q hq
          rcases List.mem_cons.mp hq with h1 | h2
          · rw [h1]; exact hkey_r2
          · rcases (List.pairwise_cons.mp hsort2).1 q h2 with hlt | ⟨heq, _⟩
            · exact lt_trans hkey_r2 hlt
            · rw [← heq]; exact hkey_r2
        have hqne : ∀ q ∈ r2 :: rest2', q.sender ≠ some (senderKey r) := by
          intro q hq hc
          have hgq : senderKey q ≠ "" := hgood q (hmem2 q hq)
          have := sender_eq_of_key q hgq
          rw [this] at hc
          have : senderKey q = senderKey r := Option.some.injEq .. ▸ hc
          exact absurd this (ne_of_gt (hkey_q q hq))
        have hst2 : ∀ q ∈ r2 :: rest2',
            (store_gps_data maxP st (r :: run)).gps_data q.sender = [] := by
          intro q hq
          rw [store_gps_data_gps_apply]
          have hfil : (r :: run).filter (fun p => p.sender = q.sender) = [] := by
            apply List.filter_eq_nil_iff.mpr
            intro a ha
            rw [hallgrp a ha]
            simp only [decide_eq_true_eq]
            exact fun hc => hqne q hq hc.symm
          rw [hfil, List.foldl_nil]
          exact hst q (hmem2 q hq)
        have hlen2 : (r2 :: rest2').length ≤ m := by
          have := congrArg List.length htsplit
          simp only [List.length_append, List.length_cons] at this hlen ⊢
          omega
        have hgood2 : ∀ q ∈ r2 :: rest2', senderKey q ≠ "" := by
          intro q hq
          exact hgood q (hmem2 q hq)
        have hcont : loadLoop maxP rest2' r2.sender [r2]
              (store_gps_data maxP st (r :: run))
            = loadLoop maxP (r2 :: rest2') none []
              (store_gps_data maxP st (r :: run)) := by
          rw [loadLoop_cons_eq,
            if_neg (fun hc => by rw [hr2s] at hc; exact Option.noConfusion hc),
            flushGroup_none]
        rw [hcont, ih (r2 :: rest2') hlen2 hsort2 hgood2 _ hst2]
        show store_gps_data maxP _ (r2 :: rest2') = _
        unfold store_gps_data
        rw [← List.foldl_append]
        congr 1
        rw [List.cons_append, htsplit]

theorem load_eq_store (maxP : Nat) (rows : List PosRecord)
    (hsort : SortedRows rows) (hgood : ∀ r ∈ rows, senderKey r ≠ "") :
    load_historical_data maxP rows = store_gps_data maxP emptyState rows :=
  loadLoop_eq_store_aux maxP rows.length rows le_rfl hsort hgood emptyState
    (fun _ _ => rfl)

theorem pAlt_altitude (q : ℚ) : (pAlt q).altitude = some q := rfl

theorem calcAlt_char (points : List PosRecord) :
    (calculate_altitude_trend points).current_altitude
      = (points.getLast?.bind PosRecord.altitude).map round1
    ∧ ((points.length < 2 ∨ ((takeLast 5 points).filterMap PosRecord.altitude).length < 2) →
        (calculate_altitude_trend points).trend = "stable"
        ∧ (calculate_altitude_trend points).change = 0)
    ∧ (2 ≤ points.length →
        2 ≤ ((takeLast 5 points).filterMap PosRecord.altitude).length →
        (calculate_altitude_trend points).change
          = round1 (((takeLast 5 points).filterMap PosRecord.altitude).getLast?.getD 0
              - ((takeLast 5 points).filterMap PosRecord.altitude).head?.getD 0)
        ∧ (calculate_altitude_trend points).trend
          = (if ((takeLast 5 points).filterMap PosRecord.altitude).getLast?.getD 0
                - ((takeLast 5 points).filterMap PosRecord.altitude).head?.getD 0 > 5
             then "rising"
             else if ((takeLast 5 points).filterMap PosRecord.altitude).getLast?.getD 0
                - ((takeLast 5 points).filterMap PosRecord.altitude).head?.getD 0 < -5
             then "falling" else "stable")) := by
  rcases hl : points.getLast? with _ | latest
  · have hnil : points = [] := List.getLast?_eq_none_iff.mp hl
    subst hnil
    exact ⟨rfl, fun _ => ⟨rfl, rfl⟩, fun h2 _ => absurd h2 (by simp)⟩
  · simp only [calculate_altitude_trend, hl, Option.bind_some]
    by_cases h2 : points.length < 2
    · rw [if_pos h2]
      exact ⟨rfl, fun _ => ⟨rfl, rfl⟩, fun hc _ => absurd hc (by omega)⟩
    · rw [if_neg h2]
      by_cases ha : ((takeLast 5 points).filterMap PosRecord.altitude).length < 2
      · rw [if_pos ha]
        exact ⟨rfl, fun _ => ⟨rfl, rfl⟩, fun _ hc => absurd hc (by omega)⟩
      · rw [if_neg ha]
        refine ⟨rfl, fun hor => ?_, fun _ _ => ⟨rfl, rfl⟩⟩
        rcases hor with hc | hc
        · exact absurd hc h2
        · exact absurd hc ha

theorem extract_gps_point_bounds (e : PointElem) (sender : Option String)
    (sender_type : String) (timestamp protocol : Option String) (rec : PosRecord)
    (h : extract_gps_point e sender sender_type timestamp protocol = some rec) :
    (-90 ≤ rec.lat ∧ rec.lat ≤ 90 ∧ -180 ≤ rec.lng ∧ rec.lng ≤ 180)
    ∧ rec.sender = sender ∧ rec.timestamp = timestamp := by
  unfold extract_gps_point at h
  rcases hl : e.lat with _ | latTxt <;> rw [hl] at h
  · exact Option.noConfusion h
  rcases hg : e.lng with _ | lngTxt <;> rw [hg] at h
  · exact Option.noConfusion h
  rcases latTxt with _ | lat
  all_goals rcases lngTxt with _ | lng
  all_goals simp only at h
  all_goals try exact Option.noConfusion h
  split_ifs at h with hcond
  all_goals try exact Option.noConfusion h
  have hrec := Option.some.inj h
  rw [← hrec]
  exact ⟨⟨hcond.1, hcond.2.1, hcond.2.2.1, hcond.2.2.2⟩, rfl, rfl⟩

theorem scanReports_cons (root : DataRoot) (sender : Option String) (sender_type : String)
    (timestamp protocol : Option String) (t : String) (rest : List String) :
    scanReports root sender sender_type timestamp protocol (t :: rest)
      = match root.findReport t with
        | some rep =>
          if t = "nalGpsReport3" ∨ t = "nalGpsReport4" then
            rep.points.filterMap
              (fun p => extract_gps_point p sender sender_type timestamp protocol)
          else (extract_gps_point rep.selfPoint sender sender_type timestamp protocol).toList
        | none => scanReports root sender sender_type timestamp protocol rest := rfl

theorem mem_scanReports (root : DataRoot) (sender : Option String) (sender_type : String)
    (timestamp protocol : Option String) :
    ∀ (l : List String) (rec : PosRecord),
      rec ∈ scanReports root sender sender_type timestamp protocol l →
      ∃ e : PointElem, extract_gps_point e sender sender_type timestamp protocol = some rec
  | [], rec, h => absurd h (by simp [scanReports])
  | t :: rest, rec, h => by
    rw [scanReports_cons] at h
    rcases hr : root.findReport t with _ | rep
    · rw [hr] at h
      exact mem_scanReports root sender sender_type timestamp protocol rest rec h
    · rw [hr] at h
      simp only at h
      by_cases ht : t = "nalGpsReport3" ∨ t = "nalGpsReport4"
      · rw [if_pos ht] at h
        obtain ⟨p, _, hp⟩ := List.mem_filterMap.mp h
        exact ⟨p, hp⟩
      · rw [if_neg ht] at h
        refine ⟨rep.selfPoint, ?_⟩
        rcases he : extract_gps_point rep.selfPoint sender sender_type timestamp protocol
            with _ | q
        · rw [he] at h
          simp [Option.toList] at h
        · rw [he] at h
          simp only [Option.toList, List.mem_singleton] at h
          rw [h]

theorem scanReports_first (root : DataRoot) (sender : Option String) (sender_type : String)
    (timestamp protocol : Option String) :
    ∀ (pre : List String) (t : String) (post : List String) (rep : GpsReportElem),
      (∀ u ∈ pre, root.findReport u = none) → root.findReport t = some rep →
      scanReports root sender sender_type timestamp protocol (pre ++ t :: post)
        = if t = "nalGpsReport3" ∨ t = "nalGpsReport4" then
            rep.points.filterMap
              (fun p => extract_gps_point p sender sender_type timestamp protocol)
          else (extract_gps_point rep.selfPoint sender sender_type timestamp protocol).toList
  | [], t, post, rep, _, ht => by
    rw [List.nil_append, scanReports_cons, ht]
  | u :: pre, t, post, rep, hpre, ht => by
    have hu : root.findReport u = none := hpre u (by simp)
    have ih := scanReports_first root sender sender_type timestamp protocol pre t post rep
      (fun v hv => hpre v (by simp [hv])) ht
    rw [List.cons_append, scanReports_cons, hu]
    exact ih

theorem scanReports_all_none (root : DataRoot) (sender : Option String)
    (sender_type : String) (timestamp protocol : Option String) :
    ∀ l : List String, (∀ u ∈ l, root.findReport u = none) →
      scanReports root sender sender_type timestamp protocol l = []
  | [], _ => rfl
  | u :: rest, hall => by
    rw [scanReports_cons, hall u (by simp)]
    exact scanReports_all_none root sender sender_type timestamp protocol rest
      (fun v hv => hall v (by simp [hv]))

theorem parse_gps_data_elim (target : Option String) (msg : Option DataRoot)
    (pts : List PosRecord) (h : parse_gps_data target msg = some pts) :
    ∃ (root : DataRoot) (m : MetaElem) (stxt : Option String),
      msg = some root ∧ root.meta = some m ∧ m.sender = some stxt
      ∧ ¬(pyTruthyStr target ∧ stxt ≠ target)
      ∧ pts = scanReports root stxt (m.senderTypeAttr.getD "Unknown")
          (m.time.bind id) (m.protocol.bind id) report_types := by
  rcases msg with _ | root
  · exact Option.noConfusion h
  unfold parse_gps_data at h
  simp only at h
  rcases hm : root.meta with _ | m
  · rw [hm] at h
    exact Option.noConfusion h
  rw [hm] at h
  simp only at h
  rcases hs : m.sender with _ | stxt
  · rw [hs] at h
    exact Option.noConfusion h
  rw [hs] at h
  simp only at h
  split_ifs at h with hcond
  all_goals try exact Option.noConfusion h
  exact ⟨root, m, stxt, rfl, hm, hs, hcond, (Option.some.inj h).symm⟩

theorem get_sender_summary_emergency (st : TrackerState) (s : Option String)
    (sum : SenderSummary) (h : get_sender_summary st s = some sum) :
    sum.emergency_active
      = (((st.gps_data s).getLast?).map (fun r => r.emergency.getD false)).getD false := by
  unfold get_sender_summary at h
  simp only at h
  rcases hl : (st.gps_data s).getLast? with _ | latest
  · rw [hl] at h
    exact Option.noConfusion h
  · rw [hl] at h
    simp only at h
    rw [← Option.some.inj h]
    rfl

/-- C1: the claim says the per-call message-extraction loop of `listen`
always terminates.  It does not: on a buffer holding a closing tag only
before the first opening tag (here the 13 characters of
`"</data><data>"`, exactly what a fresh connection joining mid-stream
receives), the loop guard holds, yet the body finds `end = 6 ≤ start =
7`, emits nothing and leaves the buffer unchanged, so no iteration
count ever falsifies the guard: the `while` loop spins forever. -/
theorem C1_framer_loop_never_terminates :
    framerGuard stuckBuf = true
    ∧ ∀ fuel : Nat, framerRun fuel stuckBuf = ([], stuckBuf) := by
  have hguard : framerGuard stuckBuf = true := by decide
  have hbody : framerBody stuckBuf = (none, stuckBuf) := by decide
  refine ⟨hguard, ?_⟩
  intro fuel
  induction fuel with
  | zero => rfl
  | succ n ih =>
    unfold framerRun
    rw [hguard, if_pos rfl, hbody]
    simp only
    rw [ih]
    rfl

/-- C3 counterexample: for the record list `[rEmptySender]`, which is
sorted by sender then timestamp, bulk load installs nothing (the Python
`if current_sender:` treats the empty-string sender as falsy), while
replaying the same record through `store_gps_data` installs the record
and its latest position.  The claimed equality of the two states fails. -/
theorem C3_counterexample :
    SortedRows [rEmptySender]
    ∧ (load_historical_data 10 [rEmptySender]).gps_data (some "") = []
    ∧ (store_gps_data 10 emptyState [rEmptySender]).gps_data (some "") = [rEmptySender]
    ∧ (load_historical_data 10 [rEmptySender]).latest_positions (some "") = none
    ∧ (store_gps_data 10 emptyState [rEmptySender]).latest_positions (some "")
        = some rEmptySender := by
  refine ⟨?_, rfl, rfl, rfl, rfl⟩
  unfold SortedRows
  simp

/-- C3 (amended): for every record list sorted by sender then timestamp
in which every sender is a non-empty string, bulk-loading into the empty
store produces exactly the same state (per-sender histories and latest
positions) as appending the records one-by-one into the empty store.
The amendment excludes the empty-string sender exhibited by the
counterexample; `senderKey r ≠ ""` says the record's sender is neither
NULL nor the empty string. -/
theorem C3_bulk_load_matches_append (maxP : Nat) (rows : List PosRecord)
    (hsort : SortedRows rows) (hgood : ∀ r ∈ rows, senderKey r ≠ "") :
    load_historical_data maxP rows = store_gps_data maxP emptyState rows :=
  load_eq_store maxP rows hsort hgood

theorem C3_bulk_load_matches_append_witness :
    SortedRows [rAlpha, rBeta]
    ∧ (∀ r ∈ [rAlpha, rBeta], senderKey r ≠ "")
    ∧ load_historical_data 10 [rAlpha, rBeta]
        = store_gps_data 10 emptyState [rAlpha, rBeta] := by
  have hsort : SortedRows [rAlpha, rBeta] := by
    unfold SortedRows
    refine List.Pairwise.cons ?_ (by simp)
    intro b hb
    rw [List.mem_singleton.mp hb]
    left
    show senderKey rAlpha < senderKey rBeta
    rw [show senderKey rAlpha = "alpha" from rfl, show senderKey rBeta = "beta" from rfl,
      String.lt_iff_toList_lt]
    decide
  exact ⟨hsort, by decide, C3_bulk_load_matches_append 10 [rAlpha, rBeta] hsort (by decide)⟩

/-- C5: splitting an append batch never changes the final state
(`store_gps_data` over `N` then `M` equals one call over `N ++ M`, from
any store state), and with the config-validated cap `maxP ≥ 1` each
sender's window after the combined append is the previous window plus
that sender's new records, truncated from the front to the cap. -/
theorem C5_append_batch_split (maxP : Nat) (hmax : 1 ≤ maxP) (st : TrackerState)
    (N M : List PosRecord) :
    store_gps_data maxP (store_gps_data maxP st N) M = store_gps_data maxP st (N ++ M)
    ∧ ∀ s : Option String,
        (N ++ M).filter (fun p => p.sender = s) ≠ [] →
        (store_gps_data maxP st (N ++ M)).gps_data s
          = takeLast maxP (st.gps_data s ++ (N ++ M).filter (fun p => p.sender = s)) := by
  constructor
  · unfold store_gps_data
    rw [List.foldl_append]
  · intro s hne
    rw [store_gps_data_gps_apply]
    exact foldl_truncApp_of_ne_nil maxP hmax _ _ hne

theorem C5_append_batch_split_witness :
    1 ≤ 3
    ∧ (store_gps_data 3 (store_gps_data 3 emptyState [rAlpha]) [rBeta]
          = store_gps_data 3 emptyState ([rAlpha] ++ [rBeta])
        ∧ ∀ s : Option String,
            ([rAlpha] ++ [rBeta]).filter (fun p => p.sender = s) ≠ [] →
            (store_gps_data 3 emptyState ([rAlpha] ++ [rBeta])).gps_data s
              = takeLast 3 (emptyState.gps_data s
                  ++ ([rAlpha] ++ [rBeta]).filter (fun p => p.sender = s))) :=
  ⟨by decide, C5_append_batch_split 3 (by decide) emptyState [rAlpha] [rBeta]⟩

/-- C6 counterexample: with cap 3 ≥ 1, bulk-loading the single sorted
record `rEmptySender` (sender `""`) retains nothing for that sender —
not the most recently appended record — and installs no latest entry,
because the falsy empty-string sender skips the group install. -/
theorem C6_counterexample :
    1 ≤ 3
    ∧ SortedRows [rEmptySender]
    ∧ [rEmptySender].filter (fun p => p.sender = some "") = [rEmptySender]
    ∧ (load_historical_data 3 [rEmptySender]).gps_data (some "") = []
    ∧ (load_historical_data 3 [rEmptySender]).latest_positions (some "") = none := by
  refine ⟨by decide, ?_, rfl, rfl, rfl⟩
  unfold SortedRows
  simp

/-- C6 (amended): assume the cap is at least 1 (config-validated) and,
for the bulk-load part, that the persisted rows are sorted with
non-empty sender strings.  Then in every state the tracker reaches —
bulk load at startup followed by any sequence of appends — each
sender's history holds at most `maxP` records, the history is exactly
the last `maxP` records that arrived for that sender in arrival order,
and the latest entry equals the last record of the history.  In
particular appending `maxP + 5` records of one sender into the empty
store leaves exactly `maxP` records (the oldest 5 evicted) with latest
equal to the last appended. -/
theorem C6_history_cap (maxP : Nat) (hmax : 1 ≤ maxP) (rows L : List PosRecord)
    (hsort : SortedRows rows) (hgood : ∀ r ∈ rows, senderKey r ≠ "") :
    (∀ s : Option String,
      ((reachedState maxP rows L).gps_data s).length ≤ maxP
      ∧ (reachedState maxP rows L).gps_data s
          = takeLast maxP ((rows ++ L).filter (fun p => p.sender = s))
      ∧ (reachedState maxP rows L).latest_positions s
          = ((reachedState maxP rows L).gps_data s).getLast?)
    ∧ ∀ (s0 : Option String) (L5 : List PosRecord),
        (∀ r ∈ L5, r.sender = s0) → L5.length = maxP + 5 →
        (store_gps_data maxP emptyState L5).gps_data s0 = L5.drop 5
        ∧ ((store_gps_data maxP emptyState L5).gps_data s0).length = maxP
        ∧ (store_gps_data maxP emptyState L5).latest_positions s0 = L5.getLast? := by
  have hre : reachedState maxP rows L = store_gps_data maxP emptyState (rows ++ L) := by
    unfold reachedState
    rw [load_eq_store maxP rows hsort hgood]
    unfold store_gps_data
    rw [List.foldl_append]
  constructor
  · intro s
    refine ⟨?_, ?_, ?_⟩
    · rw [hre, store_empty_gps]
      exact length_truncIfOver_le maxP hmax _
    · rw [hre, store_empty_gps]
      exact truncIfOver_eq_takeLast maxP hmax _
    · rw [hre, store_empty_gps, store_empty_latest]
      exact (getLast?_truncIfOver maxP _).symm
  · intro s0 L5 hall hlen5
    have hfil : L5.filter (fun p => p.sender = s0) = L5 :=
      List.filter_eq_self.mpr (fun a ha => by simp [hall a ha])
    have hg : (store_gps_data maxP emptyState L5).gps_data s0 = L5.drop 5 := by
      rw [store_empty_gps, hfil, truncIfOver_eq_takeLast maxP hmax]
      unfold takeLast
      congr 1
      omega
    refine ⟨hg, ?_, ?_⟩
    · rw [hg, List.length_drop]
      omega
    · rw [store_empty_latest, hfil]

theorem C6_history_cap_witness :
    1 ≤ 1
    ∧ (reachedState 1 [] [rAlpha]).gps_data (some "alpha")
        = takeLast 1 (([] ++ [rAlpha]).filter (fun p => p.sender = some "alpha"))
    ∧ (store_gps_data 1 emptyState
          [pAlt 1, pAlt 2, pAlt 3, pAlt 4, pAlt 5, pAlt 6]).gps_data (some "S")
        = [pAlt 1, pAlt 2, pAlt 3, pAlt 4, pAlt 5, pAlt 6].drop 5 := by
  have h := C6_history_cap 1 (by decide) [] [rAlpha] (by unfold SortedRows; simp) (by simp)
  exact ⟨by decide, ((h.1 (some "alpha")).2.1),
    (h.2 (some "S") [pAlt 1, pAlt 2, pAlt 3, pAlt 4, pAlt 5, pAlt 6]
      (by decide) (by decide)).1⟩

theorem round1_of_5_02 : round1 (251/50) = 5 := by
  unfold round1
  norm_num [round_eq]

/-- C2: no record that extraction yields — at the whole-message level of
`parse_gps_data` — carries a latitude outside [-90, 90] or a longitude
outside [-180, 180]; `_extract_gps_point` rejects any candidate point
with out-of-range coordinates before the record dict is built. -/
theorem C2_coordinates_validated (target : Option String) (msg : Option DataRoot)
    (pts : List PosRecord) (h : parse_gps_data target msg = some pts) :
    ∀ rec ∈ pts, -90 ≤ rec.lat ∧ rec.lat ≤ 90 ∧ -180 ≤ rec.lng ∧ rec.lng ≤ 180 := by
  intro rec hrec
  obtain ⟨root, m, stxt, _, _, _, _, hpts⟩ := parse_gps_data_elim target msg pts h
  rw [hpts] at hrec
  obtain ⟨e, he⟩ := mem_scanReports root stxt _ _ _ report_types rec hrec
  exact (extract_gps_point_bounds e _ _ _ _ rec he).1

theorem C2_coordinates_validated_witness :
    parse_gps_data none (some rootSingle)
      = some [{ sender := some "alpha", sender_type := "Unknown", lat := 1, lng := 2,
                timestamp := some "T1", protocol := none }]
    ∧ (-90 ≤ (1 : ℚ) ∧ (1 : ℚ) ≤ 90 ∧ -180 ≤ (2 : ℚ) ∧ (2 : ℚ) ≤ 180) := by
  have h : parse_gps_data none (some rootSingle)
      = some [{ sender := some "alpha", sender_type := "Unknown", lat := 1, lng := 2,
                timestamp := some "T1", protocol := none }] := rfl
  exact ⟨h, C2_coordinates_validated none (some rootSingle) _ h _
    (List.mem_singleton.mpr rfl)⟩

/-- C4 counterexample: for the two-point history with altitudes 0 and
5.02 m (the rational 251/50), the code's trend is "rising" (it compares
the unrounded difference 5.02 > 5.0), while the claim's algorithm — in
which the threshold is applied to `change`, the difference rounded to
one decimal, i.e. 5.0 — says "stable"; the two sides agree on the
reported `change` 5.0 itself. -/
theorem C4_counterexample :
    (calculate_altitude_trend [pAlt 0, pAlt (251/50)]).trend = "rising"
    ∧ (claimAltitudeTrend [pAlt 0, pAlt (251/50)]).trend = "stable"
    ∧ (calculate_altitude_trend [pAlt 0, pAlt (251/50)]).change = 5
    ∧ (claimAltitudeTrend [pAlt 0, pAlt (251/50)]).change = 5 := by
  have halts : (takeLast 5 [pAlt 0, pAlt (251/50)]).filterMap PosRecord.altitude
      = [0, 251/50] := by
    show ([pAlt 0, pAlt (251/50)].drop ([pAlt 0, pAlt (251/50)].length - 5)).filterMap
        PosRecord.altitude = _
    simp [pAlt_altitude]
  have hlen2 : 2 ≤ ((takeLast 5 [pAlt 0, pAlt (251/50)]).filterMap
      PosRecord.altitude).length := by
    rw [halts]
    decide
  have hchar := (calcAlt_char [pAlt 0, pAlt (251/50)]).2.2 (by decide) hlen2
  have hdval : ((takeLast 5 [pAlt 0, pAlt (251/50)]).filterMap
        PosRecord.altitude).getLast?.getD 0
      - ((takeLast 5 [pAlt 0, pAlt (251/50)]).filterMap
        PosRecord.altitude).head?.getD 0 = 251/50 := by
    rw [halts]
    simp
  rw [hdval] at hchar
  have hclaim : claimAltitudeTrend [pAlt 0, pAlt (251/50)]
      = { current_altitude := some 5, trend := "stable", change := 5 } := by
    unfold claimAltitudeTrend
    rw [halts]
    simp only [List.length_cons, List.length_nil, List.getLast?_cons_cons,
      List.getLast?_singleton, List.head?_cons, Option.getD_some]
    norm_num [round1_of_5_02, pAlt, round1]
    norm_num [round_eq]
  refine ⟨?_, ?_, ?_, ?_⟩
  · rw [hchar.2, if_pos (by norm_num : ((251 : ℚ)/50) > 5)]
  · rw [hclaim]
  · rw [hchar.1, round1_of_5_02]
  · rw [hclaim]

/-- C4 (amended): the summarizer's fields follow the spec algorithm
except that the trend thresholds are applied to the unrounded altitude
difference, not to the rounded `change`: `current_altitude` is the
latest record's altitude rounded to one decimal when present; with fewer
than 2 records, or fewer than 2 collected altitudes among the last
min(5, count) records, the trend is "stable" and the change 0.0;
otherwise `change` is the rounded difference last − first and the trend
is "rising" when the unrounded difference exceeds 5.0, "falling" when it
is below −5.0, else "stable". -/
theorem C4_altitude_summary (points : List PosRecord) :
    (calculate_altitude_trend points).current_altitude
      = (points.getLast?.bind PosRecord.altitude).map round1
    ∧ ((points.length < 2 ∨ ((takeLast 5 points).filterMap PosRecord.altitude).length < 2) →
        (calculate_altitude_trend points).trend = "stable"
        ∧ (calculate_altitude_trend points).change = 0)
    ∧ (2 ≤ points.length →
        2 ≤ ((takeLast 5 points).filterMap PosRecord.altitude).length →
        (calculate_altitude_trend points).change
          = round1 (((takeLast 5 points).filterMap PosRecord.altitude).getLast?.getD 0
              - ((takeLast 5 points).filterMap PosRecord.altitude).head?.getD 0)
        ∧ (calculate_altitude_trend points).trend
          = (if ((takeLast 5 points).filterMap PosRecord.altitude).getLast?.getD 0
                - ((takeLast 5 points).filterMap PosRecord.altitude).head?.getD 0 > 5
             then "rising"
             else if ((takeLast 5 points).filterMap PosRecord.altitude).getLast?.getD 0
                - ((takeLast 5 points).filterMap PosRecord.altitude).head?.getD 0 < -5
             then "falling" else "stable")) :=
  calcAlt_char points

theorem C4_altitude_summary_witness :
    2 ≤ ([pAlt 100, pAlt 110, pAlt 120] : List PosRecord).length
    ∧ 2 ≤ ((takeLast 5 [pAlt 100, pAlt 110, pAlt 120]).filterMap PosRecord.altitude).length
    ∧ (calculate_altitude_trend [pAlt 100, pAlt 110, pAlt 120]).trend = "rising"
    ∧ (calculate_altitude_trend [pAlt 100, pAlt 110, pAlt 120]).change = 20 := by
  have halts : (takeLast 5 [pAlt 100, pAlt 110, pAlt 120]).filterMap PosRecord.altitude
      = [100, 110, 120] := by
    show (([pAlt 100, pAlt 110, pAlt 120]).drop
        ([pAlt 100, pAlt 110, pAlt 120].length - 5)).filterMap PosRecord.altitude = _
    simp [pAlt_altitude]
  have hlen : 2 ≤ ((takeLast 5 [pAlt 100, pAlt 110, pAlt 120]).filterMap
      PosRecord.altitude).length := by
    rw [halts]
    decide
  have hchar := (C4_altitude_summary [pAlt 100, pAlt 110, pAlt 120]).2.2 (by decide) hlen
  have hd : ((takeLast 5 [pAlt 100, pAlt 110, pAlt 120]).filterMap
        PosRecord.altitude).getLast?.getD 0
      - ((takeLast 5 [pAlt 100, pAlt 110, pAlt 120]).filterMap
        PosRecord.altitude).head?.getD 0 = 20 := by
    rw [halts]
    norm_num
  rw [hd] at hchar
  refine ⟨by decide, hlen, ?_, ?_⟩
  · rw [hchar.2, if_pos (by norm_num : (20 : ℚ) > 5)]
  · rw [hchar.1]
    unfold round1
    norm_num [round_eq]

/-- C7 counterexample: the message `rootNoSenderText` has its `meta` and
`sender` elements present, but the sender element is empty (text `None`)
and the `time` element is absent.  With no target filter configured,
extraction still yields one record — and that record's sender and
timestamp are both null, contradicting the claim that yielded records
always carry a non-null sender string and timestamp string. -/
theorem C7_counterexample :
    parse_gps_data none (some rootNoSenderText) = some [recNoSenderText]
    ∧ recNoSenderText.sender = none
    ∧ recNoSenderText.timestamp = none :=
  ⟨rfl, rfl, rfl⟩

/-- C7 (amended): extraction yields records only when the parsed
message has a `meta` section with a `sender` element (absence of either
yields nothing), and every yielded record's sender equals that sender
element's text while its timestamp equals the `time` element's text —
but either text may be null (empty `<sender/>` element, absent `time`
element), so presence of the elements, not non-nullness of the values,
is what is guaranteed. -/
theorem C7_required_fields (target : Option String) (msg : Option DataRoot)
    (pts : List PosRecord) (h : parse_gps_data target msg = some pts) :
    ∃ (root : DataRoot) (m : MetaElem) (stxt : Option String),
      msg = some root ∧ root.meta = some m ∧ m.sender = some stxt
      ∧ ∀ rec ∈ pts, rec.sender = stxt ∧ rec.timestamp = m.time.bind id := by
  obtain ⟨root, m, stxt, hmsg, hm, hs, _, hpts⟩ := parse_gps_data_elim target msg pts h
  refine ⟨root, m, stxt, hmsg, hm, hs, ?_⟩
  intro rec hrec
  rw [hpts] at hrec
  obtain ⟨e, he⟩ := mem_scanReports root stxt _ _ _ report_types rec hrec
  exact (extract_gps_point_bounds e _ _ _ _ rec he).2

theorem C7_required_fields_witness :
    ∃ (root : DataRoot) (m : MetaElem) (stxt : Option String),
      (some rootSingle : Option DataRoot) = some root ∧ root.meta = some m
      ∧ m.sender = some stxt
      ∧ ∀ rec ∈ [({ sender := some "alpha", sender_type := "Unknown", lat := 1, lng := 2,
                    timestamp := some "T1", protocol := none } : PosRecord)],
          rec.sender = stxt ∧ rec.timestamp = m.time.bind id :=
  C7_required_fields none (some rootSingle)
    [{ sender := some "alpha", sender_type := "Unknown", lat := 1, lng := 2,
       timestamp := some "T1", protocol := none }] rfl

/-- C8: extraction consumes exactly one report schema per message:
whenever the fixed ordered `report_types` list splits as
`pre ++ t :: post` with every tag of `pre` absent and tag `t` present,
the output is determined by section `t` alone — one record per `point`
sub-element in document order for the two collection schemas
`nalGpsReport3` / `nalGpsReport4`, at most one record from the section
itself for every other schema — regardless of which later-listed
sections are also present. -/
theorem C8_first_schema_only (target : Option String) (root : DataRoot) (m : MetaElem)
    (stxt : Option String) (hm : root.meta = some m) (hs : m.sender = some stxt)
    (hpass : ¬(pyTruthyStr target ∧ stxt ≠ target))
    (pre : List String) (t : String) (post : List String) (rep : GpsReportElem)
    (hsplit : report_types = pre ++ t :: post)
    (hpre : ∀ u ∈ pre, root.findReport u = none)
    (ht : root.findReport t = some rep) :
    parse_gps_data target (some root)
      = some (if t = "nalGpsReport3" ∨ t = "nalGpsReport4" then
            rep.points.filterMap (fun p => extract_gps_point p stxt
              (m.senderTypeAttr.getD "Unknown") (m.time.bind id) (m.protocol.bind id))
          else (extract_gps_point rep.selfPoint stxt (m.senderTypeAttr.getD "Unknown")
              (m.time.bind id) (m.protocol.bind id)).toList) := by
  unfold parse_gps_data
  simp only
  rw [hm]
  simp only
  rw [hs]
  simp only
  rw [if_neg hpass]
  congr 1
  rw [hsplit]
  exact scanReports_first root stxt _ _ _ pre t post rep hpre ht

theorem C8_first_schema_only_witness :
    parse_gps_data none (some rootSingle)
      = some [{ sender := some "alpha", sender_type := "Unknown", lat := 1, lng := 2,
                timestamp := some "T1", protocol := none }] := by
  have h := C8_first_schema_only none rootSingle metaAlpha (some "alpha") rfl rfl
    (by simp [pyTruthyStr])
    ["nalGpsReport3", "nalGpsReport4"] "nalGpsReport5"
    ["nalGpsReport6", "nalGpsReport7", "nal10ByteGpsReport0",
     "pecosP3GpsReport", "pecosP4GpsReport"] repSimple rfl (by decide) rfl
  rw [h]
  rfl

/-- C9: a sender's `emergency_active` summary field is computed from the
latest retained record alone — it is that record's emergency flag,
defaulting to false when the key is absent — and depends on nothing but
the last record of the history: two states whose histories share the
same last record produce the same `emergency_active`, so an emergency
on an earlier retained record never makes it true. -/
theorem C9_emergency_from_latest_only (st : TrackerState) (s : Option String)
    (sum : SenderSummary) (h : get_sender_summary st s = some sum) :
    sum.emergency_active
      = (((st.gps_data s).getLast?).map (fun r => r.emergency.getD false)).getD false
    ∧ ∀ (st2 : TrackerState) (sum2 : SenderSummary),
        get_sender_summary st2 s = some sum2 →
        (st2.gps_data s).getLast? = (st.gps_data s).getLast? →
        sum2.emergency_active = sum.emergency_active := by
  refine ⟨get_sender_summary_emergency st s sum h, ?_⟩
  intro st2 sum2 h2 hsame
  rw [get_sender_summary_emergency st2 s sum2 h2, hsame,
    get_sender_summary_emergency st s sum h]

theorem C9_emergency_from_latest_only_witness :
    get_sender_summary stEmerThenCalm (some "S")
      = some { total_points := 2, latest_position := (0, 0), latest_time := some "10:01",
               emergency_active := false, altitude := none, altitude_trend := "stable",
               altitude_change := 0 }
    ∧ (false : Bool)
      = (((stEmerThenCalm.gps_data (some "S")).getLast?).map
          (fun r => r.emergency.getD false)).getD false := by
  have h : get_sender_summary stEmerThenCalm (some "S")
      = some { total_points := 2, latest_position := (0, 0), latest_time := some "10:01",
               emergency_active := false, altitude := none, altitude_trend := "stable",
               altitude_change := 0 } := rfl
  exact ⟨h, (C9_emergency_from_latest_only stEmerThenCalm (some "S") _ h).1⟩

/-- C10: a well-formed message whose `meta` section and `sender` element
are present and which passes the target-sender filter, but which
contains none of the eight known report-schema tags, extracts to the
empty record list (`some []`, not a failure): unknown report types are
silently skipped. -/
theorem C10_unknown_schema_yields_empty (target : Option String) (root : DataRoot)
    (m : MetaElem) (stxt : Option String) (hm : root.meta = some m)
    (hs : m.sender = some stxt) (hpass : ¬(pyTruthyStr target ∧ stxt ≠ target))
    (hnone : ∀ u ∈ report_types, root.findReport u = none) :
    parse_gps_data target (some root) = some [] := by
  unfold parse_gps_data
  simp only
  rw [hm]
  simp only
  rw [hs]
  simp only
  rw [if_neg hpass]
  congr 1
  exact scanReports_all_none root stxt _ _ _ report_types hnone

theorem C10_unknown_schema_yields_empty_witness :
    parse_gps_data none (some rootNoReports) = some [] :=
  C10_unknown_schema_yields_empty none rootNoReports metaAlpha (some "alpha") rfl rfl
    (by simp [pyTruthyStr]) (by decide)

end BalloonTrack
